import Mathlib

/-!
Verification development for the PureLB allocator controller.

The controller code (`SetBalancer`, `allocateIP` in `internal/allocator/service.go`;
`DeleteBalancer`, `SetConfig`, `MarkSynced` in `internal/allocator/controller.go`)
is embedded directly from the Go source.  The `Allocator` value it drives
(`Assign`, `AllocateFromPool`, `Allocate`, `Unassign`, `SetPools`, the sharing
validator, and the helpers `Ports` / `SharingKey`) is not part of the given
sources, so those operations are modelled from the specification (sections 3,
4.2-4.7 and 6 of the design document); each such definition carries a
`Modelled from the spec:` doc comment.  External collaborators (the Go `net`
standard library and the EGW HTTP client) are likewise modelled: IP parsing and
printing as IPv4 dotted-quad arithmetic, and the EGW client as an oracle record
of result-valued functions.
-/

namespace PureLB

/-! ## Decimal characters and IPv4 parsing / printing -/

/-- The decimal digit character for a value below ten. -/
def digitChar : Nat → Char
  | 0 => '0'
  | 1 => '1'
  | 2 => '2'
  | 3 => '3'
  | 4 => '4'
  | 5 => '5'
  | 6 => '6'
  | 7 => '7'
  | 8 => '8'
  | _ => '9'

/-- Reference decimal representation of a natural number, most significant
digit first (defined by well-founded recursion; used for reasoning). -/
def natDecCharsR (n : Nat) : List Char :=
  if _h : n < 10 then [digitChar n]
  else natDecCharsR (n / 10) ++ [digitChar (n % 10)]
decreasing_by exact Nat.div_lt_self (by omega) (by omega)

/-- Fuel-indexed decimal digits accumulator; structural recursion on the fuel
so that the function computes by reduction.  The fuel-exhausted branch is
reached only for `n = 0`, where it is correct. -/
def natDecCharsAux : Nat → Nat → List Char → List Char
  | 0, n, acc => digitChar n :: acc
  | fuel + 1, n, acc =>
    if n < 10 then digitChar n :: acc
    else natDecCharsAux fuel (n / 10) (digitChar (n % 10) :: acc)

/-- Decimal representation of a natural number, most significant digit first.
Mirrors the formatting Go uses for each octet when rendering an IPv4 address. -/
def natDecChars (n : Nat) : List Char := natDecCharsAux n n []

/-- Numeric value of a list of decimal digit characters (Go `dtoi`). -/
def decValue (cs : List Char) : Nat :=
  cs.foldl (fun acc c => acc * 10 + (c.toNat - 48)) 0

/-- Whether every character is a decimal digit. -/
def allDigits (cs : List Char) : Bool :=
  cs.all Char.isDigit

/-- Parse a nonempty, all-digit character list as a decimal number. -/
def decNat? (cs : List Char) : Option Nat :=
  if !cs.isEmpty && allDigits cs then some (decValue cs) else none

/-- Split a character list on a separator character; always returns at least
one (possibly empty) field. -/
def splitOnChar (sep : Char) : List Char → List (List Char)
  | [] => [[]]
  | c :: cs =>
    let r := splitOnChar sep cs
    if c = sep then [] :: r
    else (c :: r.headD []) :: r.tail

def dotChar : Char := '.'

def slashChar : Char := '/'

/-- Modelled external collaborator: Go `net.ParseIP` restricted to IPv4
dotted-quad form.  Returns the address as a natural number below `2 ^ 32`,
or `none` when the text is not a well-formed IPv4 address. -/
def parseIPChars (cs : List Char) : Option Nat :=
  match splitOnChar dotChar cs with
  | [a, b, c, d] =>
    match decNat? a, decNat? b, decNat? c, decNat? d with
    | some va, some vb, some vc, some vd =>
      if va ≤ 255 && vb ≤ 255 && vc ≤ 255 && vd ≤ 255 then
        some (((va * 256 + vb) * 256 + vc) * 256 + vd)
      else none
    | _, _, _, _ => none
  | _ => none

/-- Modelled external collaborator: Go `net.ParseIP` on a string (IPv4). -/
def parseIP (s : String) : Option Nat :=
  parseIPChars s.data

/-- Modelled external collaborator: Go `net.IP.String` for an IPv4 address
held as a natural number. -/
def ipToString (ip : Nat) : String :=
  ⟨natDecChars (ip / 16777216 % 256) ++ dotChar ::
    (natDecChars (ip / 65536 % 256) ++ dotChar ::
      (natDecChars (ip / 256 % 256) ++ dotChar :: natDecChars (ip % 256)))⟩

/-- Modelled external collaborator: Go `net.ParseCIDR`; yields the inclusive
bounds of the network described by `a.b.c.d/bits`. -/
def parseCIDRChars (cs : List Char) : Option (Nat × Nat) :=
  match splitOnChar slashChar cs with
  | [ipPart, bitsPart] =>
    match parseIPChars ipPart, decNat? bitsPart with
    | some ip, some bits =>
      if bits ≤ 32 then
        let size := 2 ^ (32 - bits)
        let lo := ip / size * size
        some (lo, lo + size - 1)
      else none
    | _, _ => none
  | _ => none

def parseCIDR (s : String) : Option (Nat × Nat) :=
  parseCIDRChars s.data

/-! ## The allocator data model (modelled from the spec) -/

/-- Modelled from the spec: one (protocol, port) pair of a service's port set. -/
structure Port where
  proto : String
  port : Nat
deriving DecidableEq, Repr

/-- Modelled from the spec (section 3, Assignment): the record binding one key
to one address, owning pool, port set and sharing key; `orphaned` marks
assignments whose address no longer lies in any pool after a reconfiguration
(section 4.2). -/
structure Assignment where
  addr : Nat
  pool : String
  ports : List Port
  sharingKey : String
  orphaned : Bool := false
deriving DecidableEq, Repr

/-- Modelled from the spec (section 3, Pool): a named inclusive address range
plus the auto-assign eligibility flag. -/
structure Pool where
  name : String
  rangeStart : Nat
  rangeEnd : Nat
  autoAssign : Bool
deriving DecidableEq, Repr

/-- Modelled from the spec (section 3, Allocation Table / Pool Set): the
allocator state is the current pool list plus the key-to-assignment table.
The reverse address-to-keys mapping is derived (`assignmentsOn`). -/
structure Allocator where
  pools : List Pool
  allocated : List (String × Assignment)
deriving DecidableEq, Repr

/-- Modelled from the spec: a fresh allocator (`New()`), no pools, no
assignments. -/
def Allocator.new : Allocator := ⟨[], []⟩

/-- The ascending, finite, restartable address sequence of a pool
(spec section 4.1). -/
def Pool.addresses (p : Pool) : List Nat :=
  (List.range (p.rangeEnd + 1 - p.rangeStart)).map (p.rangeStart + ·)

/-- The non-orphaned assignments currently held on an address. -/
def Allocator.assignmentsOn (al : Allocator) (addr : Nat) : List Assignment :=
  (al.allocated.filter (fun p => p.2.addr == addr && !p.2.orphaned)).map (·.2)

/-- Modelled from the spec (section 4.6): two port sets may coexist on one
address when both are nonempty and disjoint; an empty ("all ports") port set
conflicts with anything. -/
def portsCoexist (a b : List Port) : Bool :=
  !a.isEmpty && !b.isEmpty && a.all (fun p => !b.contains p)

/-- Modelled from the spec (section 4.6, Sharing Validator): a candidate
(ports, sharingKey) is admitted on an address iff the address has no existing
assignments, or the candidate's sharing key is nonempty, every existing
assignment carries that same sharing key, and the candidate's port set can
coexist with every existing assignment's port set. -/
def sharingOK (existing : List Assignment) (ports : List Port) (skey : String) : Bool :=
  existing.isEmpty ||
    (skey != "" && existing.all (fun a => a.sharingKey == skey && portsCoexist a.ports ports))

/-- The pool of the current pool set containing an address, if any. -/
def Allocator.poolFor (al : Allocator) (addr : Nat) : Option Pool :=
  al.pools.find? (fun p => decide (p.rangeStart ≤ addr) && decide (addr ≤ p.rangeEnd))

/-- Modelled from the spec (section 7): the allocator error taxonomy. -/
inductive AllocErr where
  | invalidPoolConfig (pool : String)
  | addressNotInPool
  | assignmentMismatch
  | keyAlreadyAssigned
  | sharingConflict
  | poolNotFound
  | poolExhausted
  | noAddressAvailable
deriving DecidableEq, Repr

/-- Modelled from the spec (section 4.3, explicit-address allocation):
the address must lie in some pool; a key re-requesting its own address with
identical ports and sharing key is a no-op, a differing re-request fails, a
request for a different address fails; otherwise the sharing validator decides
and on admission a new assignment is recorded.  Returns the owning pool name. -/
def Allocator.Assign (al : Allocator) (key : String) (addr : Nat) (ports : List Port)
    (skey : String) : Except AllocErr (String × Allocator) :=
  match al.poolFor addr with
  | none => .error .addressNotInPool
  | some pl =>
    match al.allocated.lookup key with
    | some a =>
      if a.addr = addr then
        if a.ports = ports ∧ a.sharingKey = skey then .ok (a.pool, al)
        else .error .assignmentMismatch
      else .error .keyAlreadyAssigned
    | none =>
      if sharingOK (al.assignmentsOn addr) ports skey then
        .ok (pl.name,
          { al with allocated := (key, ⟨addr, pl.name, ports, skey, false⟩) :: al.allocated })
      else .error .sharingConflict

/-- Modelled from the spec (section 4.4): try each candidate address in order,
running the section 4.3 checks, until one admits the request. -/
def Allocator.tryAddrs (al : Allocator) (key : String) (addrs : List Nat) (ports : List Port)
    (skey : String) : Except AllocErr (Nat × Allocator) :=
  match addrs with
  | [] => .error .poolExhausted
  | a :: rest =>
    match al.Assign key a ports skey with
    | .ok (_, al') => .ok (a, al')
    | .error _ => al.tryAddrs key rest ports skey

/-- Modelled from the spec (section 4.4, named-pool allocation): fails with
`poolNotFound` for an unknown pool name, otherwise searches the pool's
addresses in ascending order. -/
def Allocator.AllocateFromPool (al : Allocator) (key pool : String) (ports : List Port)
    (skey : String) : Except AllocErr (Nat × Allocator) :=
  match al.pools.find? (fun p => p.name == pool) with
  | none => .error .poolNotFound
  | some p => al.tryAddrs key p.addresses ports skey

/-- Modelled from the spec (section 4.5): the per-pool search applied to each
auto-assignable pool in configured order. -/
def Allocator.allocateFromList (al : Allocator) (key : String) (ports : List Port)
    (skey : String) : List Pool → Except AllocErr (String × Nat × Allocator)
  | [] => .error .noAddressAvailable
  | p :: rest =>
    if p.autoAssign then
      match al.tryAddrs key p.addresses ports skey with
      | .ok (addr, al') => .ok (p.name, addr, al')
      | .error _ => al.allocateFromList key ports skey rest
    else al.allocateFromList key ports skey rest

/-- Modelled from the spec (section 4.5, any-pool allocation). -/
def Allocator.Allocate (al : Allocator) (key : String) (ports : List Port)
    (skey : String) : Except AllocErr (String × Nat × Allocator) :=
  al.allocateFromList key ports skey al.pools

/-- Modelled from the spec (section 4.7, release): removes the key's
assignment if present and reports whether a removal occurred; unknown keys are
a safe no-op. -/
def Allocator.Unassign (al : Allocator) (key : String) : Bool × Allocator :=
  if (al.allocated.lookup key).isSome then
    (true, { al with allocated := al.allocated.filter (fun p => p.1 != key) })
  else (false, al)

/-! ## Pool configuration (modelled from the spec) -/

/-- One pool definition as handed to `SetConfig` (a `purelbv1.ServiceGroup`):
a name, an optional local CIDR pool, an optional EGW URL, and the
auto-assign flag. -/
structure ServiceGroup where
  name : String
  localPool : Option String := none
  egwURL : Option String := none
  autoAssign : Bool := true
deriving DecidableEq, Repr

/-- The `purelbv1.Config` handed to `SetConfig`. -/
structure Config where
  groups : List ServiceGroup
deriving DecidableEq, Repr

/-- Modelled from the spec (section 4.2): build the pool list from the group
definitions, failing with `invalidPoolConfig` (carrying the offending pool
name) when a range does not parse. -/
def buildPools : List ServiceGroup → Except AllocErr (List Pool)
  | [] => .ok []
  | g :: rest =>
    match buildPools rest with
    | .error e => .error e
    | .ok tail =>
      match g.localPool with
      | none => .ok tail
      | some cidr =>
        match parseCIDR cidr with
        | none => .error (.invalidPoolConfig g.name)
        | some (lo, hi) => .ok (⟨g.name, lo, hi, g.autoAssign⟩ :: tail)

/-- Whether two pools' ranges share any address. -/
def poolsOverlap (p q : Pool) : Bool :=
  decide (max p.rangeStart q.rangeStart ≤ min p.rangeEnd q.rangeEnd)

/-- Modelled from the spec (section 4.2): pairwise validation — duplicate
names and overlapping ranges are rejected, reporting the offending pool. -/
def validatePools : List Pool → Option String
  | [] => none
  | p :: rest =>
    if rest.any (fun q => q.name == p.name || poolsOverlap p q) then some p.name
    else validatePools rest

/-- Modelled from the spec (section 4.2, `SetPools`): validates the new pool
definitions; on any violation fails and the caller keeps the previous state
untouched; on success replaces the pool set wholesale and marks as orphaned
every existing assignment whose address no longer lies in any new pool. -/
def Allocator.SetPools (al : Allocator) (groups : List ServiceGroup) :
    Except AllocErr Allocator :=
  match buildPools groups with
  | .error e => .error e
  | .ok pools =>
    match validatePools pools with
    | some bad => .error (.invalidPoolConfig bad)
    | none =>
      .ok { pools := pools,
            allocated := al.allocated.map (fun p =>
              if pools.any (fun q =>
                  decide (q.rangeStart ≤ p.2.addr) && decide (p.2.addr ≤ q.rangeEnd)) then
                (p.1, { p.2 with orphaned := false })
              else
                (p.1, { p.2 with orphaned := true })) }

/-! ## The Kubernetes-facing controller (embedded from the Go source) -/

/-- The `k8s.SyncState` outcome type returned by every controller operation. -/
inductive SyncState where
  | SyncStateSuccess
  | SyncStateError
  | SyncStateReprocessAll
deriving DecidableEq, Repr

/-- The slice of a `v1.Service` object that the controller reads and writes:
spec fields `ClusterIP`, `LoadBalancerIP` and the declared ports, the
annotation map (`none` models Go's nil map), and the load-balancer ingress
IP list of the status. -/
structure Service where
  name : String := ""
  clusterIP : String := ""
  loadBalancerIP : String := ""
  ports : List Port := []
  annotations : Option (List (String × String)) := none
  ingress : List String := []
deriving DecidableEq, Repr

/-- Reading a key from a Go string map: a nil or missing entry yields `""`. -/
def annotGet (svc : Service) (k : String) : String :=
  match svc.annotations with
  | none => ""
  | some m => (m.lookup k).getD ""

/-- Writing a key into a Go string map, modelled as an association list:
replace in place when present, append otherwise. -/
def mapSet (m : List (String × String)) (k v : String) : List (String × String) :=
  if m.any (fun p => p.1 == k) then
    m.map (fun p => if p.1 == k then (k, v) else p)
  else m ++ [(k, v)]

def brand : String := "PureLB"

def brandAnnot : String := "purelb.io/allocated-by"

def poolAnnot : String := "purelb.io/allocated-from"

def sharingAnnot : String := "purelb.io/allow-shared-ip"

def desiredPoolAnnot : String := "purelb.io/address-pool"

def groupAnnot : String := "acnodal.io/groupURL"

def serviceAnnot : String := "acnodal.io/serviceURL"

def endpointAnnot : String := "acnodal.io/endpointcreateURL"

/-- Modelled from the spec (section 6): the port set handed to the allocator
is derived from the service's declared ports (`Ports(svc)`). -/
def Ports (svc : Service) : List Port := svc.ports

/-- Modelled from the spec (section 6): the sharing key handed to the
allocator is the service's explicit opt-in sharing annotation
(`SharingKey(svc)`). -/
def SharingKey (svc : Service) : String := annotGet svc sharingAnnot

/-- Observable actions of one controller call: which allocator operation was
invoked, and which info / warning events were reported through the driver's
event channel (`client.Infof` / `client.Errorf`). -/
inductive Event where
  | assignOp (key : String) (addr : Nat)
  | allocateFromPoolOp (key : String) (pool : String)
  | allocateOp (key : String)
  | infoEvent (evtType : String)
  | warningEvent (evtType : String)
deriving DecidableEq, Repr

/-- The link set returned by a successful EGW service announcement. -/
structure EGWService where
  groupLink : String := ""
  selfLink : String := ""
  createEndpointLink : String := ""
deriving DecidableEq, Repr

/-- Modelled external collaborator: the EGW client (`internal/acnodal`).
`connect` models `acnodal.New`, `getGroup` models `egw.GetGroup` (returning
the group's link map), `announceService` models `egw.AnnounceService` taking
the create-service URL, the service name and the allocated address text. -/
structure EGW where
  connect : String → Except String Unit
  getGroup : String → Except String (List (String × String))
  announceService : String → String → String → Except String EGWService

/-- The controller state (`allocator.controller`): the synced flag, the
allocator, and the optional EGW base / group URLs picked up from the
configuration. -/
structure Ctrl where
  synced : Bool := false
  ips : Allocator := Allocator.new
  baseURL : Option String := none
  groupURL : Option String := none
deriving DecidableEq, Repr

/-- Errors of `allocateIP`: an unparseable `spec.loadBalancerIP`, or a failure
of the chosen allocation strategy. -/
inductive AllocateIPError where
  | invalidLoadBalancerIP (s : String)
  | allocFailed (e : AllocErr)
deriving DecidableEq, Repr

/-- `controller.allocateIP` from `internal/allocator/service.go`: if the user
asked for a specific IP, try `Assign` on it; otherwise if the service carries
the address-pool annotation, try `AllocateFromPool`; otherwise brute-force
across all pools with `Allocate`.  Also records which allocator operation was
invoked. -/
def Ctrl.allocateIP (c : Ctrl) (key : String) (svc : Service) :
    List Event × Except AllocateIPError (String × Nat × Allocator) :=
  if svc.loadBalancerIP ≠ "" then
    match parseIP svc.loadBalancerIP with
    | none => ([], .error (.invalidLoadBalancerIP svc.loadBalancerIP))
    | some ip =>
      ([.assignOp key ip],
        match c.ips.Assign key ip (Ports svc) (SharingKey svc) with
        | .error e => .error (.allocFailed e)
        | .ok (pool, ips') => .ok (pool, ip, ips'))
  else if annotGet svc desiredPoolAnnot ≠ "" then
    ([.allocateFromPoolOp key (annotGet svc desiredPoolAnnot)],
      match c.ips.AllocateFromPool key (annotGet svc desiredPoolAnnot)
          (Ports svc) (SharingKey svc) with
      | .error e => .error (.allocFailed e)
      | .ok (ip, ips') => .ok (annotGet svc desiredPoolAnnot, ip, ips'))
  else
    ([.allocateOp key],
      match c.ips.Allocate key (Ports svc) (SharingKey svc) with
      | .error e => .error (.allocFailed e)
      | .ok (pool, ip, ips') => .ok (pool, ip, ips'))

/-- The full outcome of one `SetBalancer` call: the returned sync state, the
service as left by the call (Go mutates it in place), the controller state,
and the observable events. -/
structure BalancerResult where
  state : SyncState
  svc : Service
  ctrl : Ctrl
  events : List Event
deriving DecidableEq, Repr

def createServiceKey : String := "create-service"

def evAllocationFailed : String := "AllocationFailed"

def evIPAllocated : String := "IPAllocated"

def evGetGroupFailed : String := "GetGroupFailed"

def evAnnouncementFailed : String := "AnnouncementFailed"

/-- The tail of `SetBalancer` after its early returns: allocate, and on
success write the status and annotations and (when configured) announce to
the EGW.  Embedded from `internal/allocator/service.go` lines 62-111. -/
def Ctrl.setBalancerAlloc (c : Ctrl) (egw : EGW) (name : String) (svc : Service) :
    BalancerResult :=
  match c.allocateIP name svc with
  | (evs, .error _) =>
    ⟨.SyncStateSuccess, svc, c, evs ++ [.warningEvent evAllocationFailed]⟩
  | (evs, .ok (pool, lbIP, ips')) =>
    let evs := evs ++ [.infoEvent evIPAllocated]
    let svc := { svc with ingress := [ipToString lbIP] }
    let svc := { svc with
      annotations := some (mapSet (mapSet (svc.annotations.getD []) brandAnnot brand)
        poolAnnot pool) }
    let c := { c with ips := ips' }
    match c.baseURL with
    | none => ⟨.SyncStateSuccess, svc, c, evs⟩
    | some burl =>
      match egw.connect burl with
      | .error _ => ⟨.SyncStateError, svc, c, evs ++ [.warningEvent evAllocationFailed]⟩
      | .ok _ =>
        match egw.getGroup (c.groupURL.getD "") with
        | .error _ => ⟨.SyncStateError, svc, c, evs ++ [.warningEvent evGetGroupFailed]⟩
        | .ok links =>
          match egw.announceService ((links.lookup createServiceKey).getD "")
              svc.name (ipToString lbIP) with
          | .error _ =>
            ⟨.SyncStateError, svc, c, evs ++ [.warningEvent evAnnouncementFailed]⟩
          | .ok esvc =>
            ⟨.SyncStateSuccess,
              { svc with annotations := some (mapSet (mapSet (mapSet
                  (svc.annotations.getD []) groupAnnot esvc.groupLink)
                  serviceAnnot esvc.selfLink) endpointAnnot esvc.createEndpointLink) },
              c, evs⟩

/-- `controller.SetBalancer` from `internal/allocator/service.go`: refuse when
not synced; succeed without action when the cluster IP is missing or
malformed, or when the service already has exactly one parseable ingress IP;
otherwise allocate and apply the results. -/
def Ctrl.SetBalancer (c : Ctrl) (egw : EGW) (name : String) (svc : Service) :
    BalancerResult :=
  if c.synced = false then ⟨.SyncStateError, svc, c, []⟩
  else
    match parseIP svc.clusterIP with
    | none => ⟨.SyncStateSuccess, svc, c, []⟩
    | some _ =>
      match svc.ingress with
      | [s] =>
        if (parseIP s).isSome then ⟨.SyncStateSuccess, svc, c, []⟩
        else c.setBalancerAlloc egw name svc
      | _ => c.setBalancerAlloc egw name svc

/-- `controller.DeleteBalancer` from `internal/allocator/controller.go`:
release the key's assignment and always ask the driver to reprocess all
services. -/
def Ctrl.DeleteBalancer (c : Ctrl) (name : String) : SyncState × Ctrl :=
  (.SyncStateReprocessAll, { c with ips := (c.ips.Unassign name).2 })

/-- `controller.SetConfig` from `internal/allocator/controller.go`: a missing
configuration is an error and changes nothing; otherwise replace the pools
(an invalid pool set is an error) and record the last EGW URL found among the
groups (the Go code re-parses the URL with the path cleared; URL parsing by
the external `net/url` package is modelled as the identity). -/
def Ctrl.SetConfig (c : Ctrl) (cfg : Option Config) : SyncState × Ctrl :=
  match cfg with
  | none => (.SyncStateError, c)
  | some cfg =>
    match c.ips.SetPools cfg.groups with
    | .error _ => (.SyncStateError, c)
    | .ok ips' =>
      match (cfg.groups.filterMap (·.egwURL)).getLast? with
      | none =>
        (.SyncStateReprocessAll, { c with ips := ips', groupURL := none, baseURL := none })
      | some u =>
        (.SyncStateReprocessAll, { c with ips := ips', groupURL := some u, baseURL := some u })

/-- `controller.MarkSynced` from `internal/allocator/controller.go`. -/
def Ctrl.MarkSynced (c : Ctrl) : Ctrl := { c with synced := true }

/-- Whether the service already carries exactly one parseable ingress IP, the
condition under which `SetBalancer` returns early without allocating. -/
def hasUsableIngress (svc : Service) : Bool :=
  match svc.ingress with
  | [s] => (parseIP s).isSome
  | _ => false

/-! ## Concrete fixtures (mirroring the Go tests) -/

/-- An EGW oracle on which every call succeeds. -/
def egwOk : EGW := ⟨fun _ => .ok (), fun _ => .ok [], fun _ _ _ => .ok {}⟩

/-- An EGW oracle reachable and group-resolvable, on which announcing a
service fails. -/
def egwAnnFail : EGW :=
  ⟨fun _ => .ok (), fun _ => .ok [], fun _ _ _ => .error ("announce refused")⟩

/-- A load-balancer service with a cluster IP and no other request data, as
in the Go tests. -/
def svcPlain : Service := { clusterIP := "1.2.3.4" }

/-- The single-address pool group of `TestDeleteRecyclesIP`. -/
def grpDefault : ServiceGroup := { name := "default", localPool := some ("1.2.3.0/32") }

/-- A group carrying only an EGW URL. -/
def grpEgw : ServiceGroup := { name := "egwgrp", egwURL := some ("http://egw.example") }

def cfg32 : Config := ⟨[grpDefault]⟩

def cfgEgw : Config := ⟨[grpDefault, grpEgw]⟩

/-- A freshly constructed controller, not yet configured or synced. -/
def ctrlBase : Ctrl := {}

/-- The controller after applying the one-address configuration and syncing. -/
def ctrlSynced : Ctrl := ((ctrlBase.SetConfig (some cfg32)).2).MarkSynced

/-- As `ctrlSynced` but with the EGW integration configured. -/
def ctrlEgw : Ctrl := ((ctrlBase.SetConfig (some cfgEgw)).2).MarkSynced

/-- The service as left by a successful `SetBalancer` on `svcPlain` against
`ctrlSynced`. -/
def svcAfter : Service :=
  { clusterIP := "1.2.3.4",
    annotations := some [(brandAnnot, brand), (poolAnnot, "default")],
    ingress := ["1.2.3.0"] }

/-- The controller as left by that same successful `SetBalancer` call. -/
def ctrlAfter : Ctrl :=
  { synced := true,
    ips := { pools := [⟨"default", 16909056, 16909056, true⟩],
             allocated := [("test", ⟨16909056, "default", [], "", false⟩)] } }

/-! ## Supporting lemmas: decimal digits and the IPv4 round trip -/

theorem digitChar_isDigit (n : Nat) : (digitChar n).isDigit = true := by
  unfold digitChar
  split <;> decide

theorem digitChar_toNat (n : Nat) (h : n < 10) : (digitChar n).toNat - 48 = n := by
  match n, h with
  | 0, _ | 1, _ | 2, _ | 3, _ | 4, _ | 5, _ | 6, _ | 7, _ | 8, _ | 9, _ => decide

theorem natDecCharsAux_eq (fuel : Nat) : ∀ (n : Nat) (acc : List Char), n ≤ fuel →
    natDecCharsAux fuel n acc = natDecCharsR n ++ acc := by
  induction fuel with
  | zero =>
    intro n acc h
    have hn : n = 0 := by omega
    subst hn
    rw [natDecCharsR]
    rfl
  | succ fuel ih =>
    intro n acc h
    rw [natDecCharsAux, natDecCharsR]
    by_cases h10 : n < 10
    · rw [if_pos h10, dif_pos h10]
      rfl
    · rw [if_neg h10, dif_neg h10, ih (n / 10) _ (by omega), List.append_assoc]
      rfl

theorem natDecChars_eq_R (n : Nat) : natDecChars n = natDecCharsR n := by
  rw [natDecChars, natDecCharsAux_eq n n [] (Nat.le_refl n), List.append_nil]

theorem natDecCharsR_ne_nil (n : Nat) : natDecCharsR n ≠ [] := by
  rw [natDecCharsR]
  split
  · simp
  · simp

theorem allDigits_natDecCharsR (n : Nat) : allDigits (natDecCharsR n) = true := by
  induction n using Nat.strong_induction_on with
  | _ n ih =>
    rw [natDecCharsR]
    split
    · simp [allDigits, digitChar_isDigit]
    · rename_i h
      have hlt : n / 10 < n := Nat.div_lt_self (by omega) (by omega)
      have := ih _ hlt
      simp [allDigits] at this ⊢
      exact ⟨this, digitChar_isDigit _⟩

theorem decValue_append_digit (a : List Char) (d : Char) :
    decValue (a ++ [d]) = decValue a * 10 + (d.toNat - 48) := by
  simp [decValue, List.foldl_append]

theorem decValue_natDecCharsR (n : Nat) : decValue (natDecCharsR n) = n := by
  induction n using Nat.strong_induction_on with
  | _ n ih =>
    rw [natDecCharsR]
    split
    · rename_i h
      simp [decValue, digitChar_toNat n h]
    · rename_i h
      have hlt : n / 10 < n := Nat.div_lt_self (by omega) (by omega)
      rw [decValue_append_digit, ih _ hlt, digitChar_toNat _ (by omega)]
      omega

theorem natDecChars_ne_nil (n : Nat) : natDecChars n ≠ [] := by
  rw [natDecChars_eq_R]
  exact natDecCharsR_ne_nil n

theorem allDigits_natDecChars (n : Nat) : allDigits (natDecChars n) = true := by
  rw [natDecChars_eq_R]
  exact allDigits_natDecCharsR n

theorem decNat?_natDecChars (n : Nat) : decNat? (natDecChars n) = some n := by
  have h1 := natDecCharsR_ne_nil n
  have h2 := allDigits_natDecCharsR n
  simp [decNat?, natDecChars_eq_R, h2, List.isEmpty_iff, h1, decValue_natDecCharsR]

theorem not_mem_of_allDigits (cs : List Char) (c : Char) (h : allDigits cs = true)
    (hc : c.isDigit = false) : c ∉ cs := by
  intro hm
  simp [allDigits, List.all_eq_true] at h
  have := h c hm
  rw [hc] at this
  exact Bool.false_ne_true this

theorem dot_not_mem_natDecChars (n : Nat) : dotChar ∉ natDecChars n :=
  not_mem_of_allDigits _ _ (allDigits_natDecChars n) (by decide)

theorem splitOnChar_of_not_mem (sep : Char) (a : List Char) (h : sep ∉ a) :
    splitOnChar sep a = [a] := by
  induction a with
  | nil => rfl
  | cons c a ih =>
    have hc : c ≠ sep := fun hceq => h (hceq ▸ List.mem_cons_self c a)
    have ha : sep ∉ a := fun hm => h (List.mem_cons_of_mem c hm)
    simp [splitOnChar, hc, ih ha]

theorem splitOnChar_append_sep (sep : Char) (a cs : List Char) (h : sep ∉ a) :
    splitOnChar sep (a ++ sep :: cs) = a :: splitOnChar sep cs := by
  induction a with
  | nil => simp [splitOnChar]
  | cons c a ih =>
    have hc : c ≠ sep := fun hceq => h (hceq ▸ List.mem_cons_self c a)
    have ha : sep ∉ a := fun hm => h (List.mem_cons_of_mem c hm)
    simp [splitOnChar, hc, ih ha]

/-- Printing an IPv4 address and parsing it back recovers the address
(reduced modulo `2 ^ 32`, which is the identity for genuine addresses). -/
theorem parseIP_ipToString (n : Nat) : parseIP (ipToString n) = some (n % 4294967296) := by
  have hsplit :
      splitOnChar dotChar (natDecChars (n / 16777216 % 256) ++ dotChar ::
        (natDecChars (n / 65536 % 256) ++ dotChar ::
          (natDecChars (n / 256 % 256) ++ dotChar :: natDecChars (n % 256)))) =
      [natDecChars (n / 16777216 % 256), natDecChars (n / 65536 % 256),
        natDecChars (n / 256 % 256), natDecChars (n % 256)] := by
    rw [splitOnChar_append_sep _ _ _ (dot_not_mem_natDecChars _),
      splitOnChar_append_sep _ _ _ (dot_not_mem_natDecChars _),
      splitOnChar_append_sep _ _ _ (dot_not_mem_natDecChars _),
      splitOnChar_of_not_mem _ _ (dot_not_mem_natDecChars _)]
  have hdata : (ipToString n).data =
      natDecChars (n / 16777216 % 256) ++ dotChar ::
        (natDecChars (n / 65536 % 256) ++ dotChar ::
          (natDecChars (n / 256 % 256) ++ dotChar :: natDecChars (n % 256))) := rfl
  show parseIPChars _ = _
  rw [parseIPChars, hdata, hsplit]
  simp only [decNat?_natDecChars]
  have hcond : (decide (n / 16777216 % 256 ≤ 255) && decide (n / 65536 % 256 ≤ 255) &&
      decide (n / 256 % 256 ≤ 255) && decide (n % 256 ≤ 255)) = true := by
    simp only [Bool.and_eq_true, decide_eq_true_eq]
    omega
  rw [hcond, if_pos rfl]
  congr 1
  have e1 : n / 16777216 / 256 = n / 4294967296 := by
    rw [Nat.div_div_eq_div_mul]
  have e2 : n / 256 / 256 = n / 65536 := by
    rw [Nat.div_div_eq_div_mul]
  have e3 : n / 65536 / 256 = n / 16777216 := by
    rw [Nat.div_div_eq_div_mul]
  omega

theorem parseIP_ipToString_isSome (n : Nat) : (parseIP (ipToString n)).isSome = true := by
  rw [parseIP_ipToString]
  rfl

/-! ## Supporting lemmas: the `SetBalancer` control paths -/

theorem setBalancer_notSynced_eq (c : Ctrl) (egw : EGW) (name : String) (svc : Service)
    (h : c.synced = false) :
    c.SetBalancer egw name svc = ⟨.SyncStateError, svc, c, []⟩ := by
  simp [Ctrl.SetBalancer, h]

theorem setBalancer_noClusterIP_eq (c : Ctrl) (egw : EGW) (name : String) (svc : Service)
    (hs : c.synced = true) (hcl : parseIP svc.clusterIP = none) :
    c.SetBalancer egw name svc = ⟨.SyncStateSuccess, svc, c, []⟩ := by
  simp [Ctrl.SetBalancer, hs, hcl]

theorem setBalancer_ingressSet_eq (c : Ctrl) (egw : EGW) (name : String) (svc : Service)
    (s : String) (hs : c.synced = true) (hi : svc.ingress = [s])
    (hp : (parseIP s).isSome = true) :
    c.SetBalancer egw name svc = ⟨.SyncStateSuccess, svc, c, []⟩ := by
  cases hcl : parseIP svc.clusterIP with
  | none => simp [Ctrl.SetBalancer, hs, hcl]
  | some ip => simp [Ctrl.SetBalancer, hs, hcl, hi, hp]

theorem hasUsableIngress_true (svc : Service) (h : hasUsableIngress svc = true) :
    ∃ s, svc.ingress = [s] ∧ (parseIP s).isSome = true := by
  unfold hasUsableIngress at h
  rcases hi : svc.ingress with _ | ⟨s, _ | ⟨s2, t2⟩⟩ <;> rw [hi] at h
  · exact absurd h (by simp)
  · exact ⟨s, rfl, h⟩
  · exact absurd h (by simp)

theorem setBalancer_allocPath_eq (c : Ctrl) (egw : EGW) (name : String) (svc : Service)
    (ip : Nat) (hs : c.synced = true) (hcl : parseIP svc.clusterIP = some ip)
    (hin : hasUsableIngress svc = false) :
    c.SetBalancer egw name svc = c.setBalancerAlloc egw name svc := by
  rcases hi : svc.ingress with _ | ⟨s, _ | ⟨s2, t2⟩⟩
  · simp [Ctrl.SetBalancer, hs, hcl, hi]
  · have hp : (parseIP s).isSome = false := by
      simpa [hasUsableIngress, hi] using hin
    simp [Ctrl.SetBalancer, hs, hcl, hi, hp]
  · simp [Ctrl.SetBalancer, hs, hcl, hi]

theorem setBalancerAlloc_err_eq (c : Ctrl) (egw : EGW) (name : String) (svc : Service)
    (evs0 : List Event) (e : AllocateIPError)
    (h : c.allocateIP name svc = (evs0, .error e)) :
    c.setBalancerAlloc egw name svc =
      ⟨.SyncStateSuccess, svc, c, evs0 ++ [.warningEvent evAllocationFailed]⟩ := by
  unfold Ctrl.setBalancerAlloc
  rw [h]

theorem setBalancerAlloc_ok_noEgw_eq (c : Ctrl) (egw : EGW) (name : String) (svc : Service)
    (evs0 : List Event) (pool : String) (lbIP : Nat) (ips' : Allocator)
    (h : c.allocateIP name svc = (evs0, .ok (pool, lbIP, ips')))
    (hb : c.baseURL = none) :
    c.setBalancerAlloc egw name svc =
      ⟨.SyncStateSuccess,
        { svc with
          ingress := [ipToString lbIP],
          annotations := some (mapSet (mapSet (svc.annotations.getD []) brandAnnot brand)
                           poolAnnot pool) },
        { c with ips := ips' }, evs0 ++ [.infoEvent evIPAllocated]⟩ := by
  unfold Ctrl.setBalancerAlloc
  rw [h]
  dsimp only
  rw [hb]

theorem setBalancerAlloc_announceFail_eq (c : Ctrl) (egw : EGW) (name : String)
    (svc : Service) (evs0 : List Event) (pool : String) (lbIP : Nat) (ips' : Allocator)
    (burl emsg : String) (links : List (String × String))
    (h : c.allocateIP name svc = (evs0, .ok (pool, lbIP, ips')))
    (hb : c.baseURL = some burl)
    (hconn : egw.connect burl = .ok ())
    (hgrp : egw.getGroup (c.groupURL.getD "") = .ok links)
    (hann : egw.announceService ((links.lookup createServiceKey).getD "") svc.name
      (ipToString lbIP) = .error emsg) :
    c.setBalancerAlloc egw name svc =
      ⟨.SyncStateError,
        { svc with
          ingress := [ipToString lbIP],
          annotations := some (mapSet (mapSet (svc.annotations.getD []) brandAnnot brand)
                           poolAnnot pool) },
        { c with ips := ips' },
        (evs0 ++ [.infoEvent evIPAllocated]) ++ [.warningEvent evAnnouncementFailed]⟩ := by
  unfold Ctrl.setBalancerAlloc
  rw [h]
  dsimp only
  rw [hb]
  dsimp only
  rw [hconn]
  dsimp only
  rw [hgrp]
  dsimp only
  rw [hann]

theorem setBalancerAlloc_success_shape (c c' : Ctrl) (egw : EGW) (name : String)
    (svc svc' : Service) (evs : List Event)
    (h : c.setBalancerAlloc egw name svc = ⟨.SyncStateSuccess, svc', c', evs⟩) :
    c'.synced = c.synced ∧
      ((svc' = svc ∧ c' = c) ∨ ∃ ipn, svc'.ingress = [ipToString ipn]) := by
  unfold Ctrl.setBalancerAlloc at h
  split at h
  · injection h with h1 h2 h3 h4
    exact ⟨by rw [← h3], Or.inl ⟨h2.symm, h3.symm⟩⟩
  · rename_i evs0 pool lbIP ips' heq
    dsimp only at h
    split at h
    · injection h with h1 h2 h3 h4
      exact ⟨by rw [← h3], Or.inr ⟨lbIP, by rw [← h2]⟩⟩
    · split at h
      · injection h with h1 h2 h3 h4
        exact absurd h1 (by simp)
      · split at h
        · injection h with h1 h2 h3 h4
          exact absurd h1 (by simp)
        · split at h
          · injection h with h1 h2 h3 h4
            exact absurd h1 (by simp)
          · injection h with h1 h2 h3 h4
            exact ⟨by rw [← h3], Or.inr ⟨lbIP, by rw [← h2]⟩⟩

theorem setBalancer_success_idempotent (c c' : Ctrl) (egw : EGW) (name : String)
    (svc svc' : Service) (evs : List Event) (hs : c.synced = true)
    (h : c.SetBalancer egw name svc = ⟨.SyncStateSuccess, svc', c', evs⟩) :
    (c'.SetBalancer egw name svc').state = .SyncStateSuccess ∧
      (c'.SetBalancer egw name svc').svc = svc' ∧
      (c'.SetBalancer egw name svc').ctrl = c' := by
  cases hcl : parseIP svc.clusterIP with
  | none =>
    rw [setBalancer_noClusterIP_eq c egw name svc hs hcl] at h
    injection h with h1 h2 h3 h4
    rw [← h2, ← h3]
    rw [setBalancer_noClusterIP_eq c egw name svc hs hcl]
    exact ⟨rfl, rfl, rfl⟩
  | some ip =>
    cases hui : hasUsableIngress svc with
    | false =>
      rw [setBalancer_allocPath_eq c egw name svc ip hs hcl hui] at h
      obtain ⟨hsync, hrest⟩ := setBalancerAlloc_success_shape c c' egw name svc svc' evs h
      rcases hrest with ⟨hsvc, hc⟩ | ⟨ipn, hing⟩
      · rw [hsvc, hc]
        rw [setBalancer_allocPath_eq c egw name svc ip hs hcl hui, h, hsvc, hc]
        exact ⟨rfl, rfl, rfl⟩
      · have hs2 : c'.synced = true := by rw [hsync]; exact hs
        rw [setBalancer_ingressSet_eq c' egw name svc' (ipToString ipn) hs2 hing
          (parseIP_ipToString_isSome ipn)]
        exact ⟨rfl, rfl, rfl⟩
    | true =>
      obtain ⟨s, his, hps⟩ := hasUsableIngress_true svc hui
      rw [setBalancer_ingressSet_eq c egw name svc s hs his hps] at h
      injection h with h1 h2 h3 h4
      rw [← h2, ← h3]
      rw [setBalancer_ingressSet_eq c egw name svc s hs his hps]
      exact ⟨rfl, rfl, rfl⟩

/-! ## Supporting lemmas: the sharing validator -/

theorem list_disjoint_comm {α : Type} (A B : List α) :
    (∀ p ∈ A, p ∉ B) ↔ (∀ p ∈ B, p ∉ A) :=
  ⟨fun h p hpB hpA => h p hpA hpB, fun h p hpA hpB => h p hpB hpA⟩

theorem sharingOK_iff (existing : List Assignment) (ports : List Port) (skey : String) :
    sharingOK existing ports skey = true ↔
      (existing = [] ∨
        (skey ≠ "" ∧ ∀ a ∈ existing, a.sharingKey = skey ∧
          (ports ≠ [] ∧ a.ports ≠ [] ∧ ∀ p ∈ ports, p ∉ a.ports))) := by
  unfold sharingOK portsCoexist
  simp [List.all_eq_true, List.isEmpty_iff, bne_iff_ne, beq_iff_eq]
  constructor
  · rintro (h | ⟨hk, hall⟩)
    · exact Or.inl h
    · refine Or.inr ⟨hk, fun a ha => ?_⟩
      obtain ⟨h1, ⟨hap, hp⟩, h4⟩ := hall a ha
      exact ⟨h1, hp, hap, (list_disjoint_comm a.ports ports).mp h4⟩
  · rintro (h | ⟨hk, hall⟩)
    · exact Or.inl h
    · refine Or.inr ⟨hk, fun a ha => ?_⟩
      obtain ⟨h1, hp, hap, h4⟩ := hall a ha
      exact ⟨h1, ⟨hap, hp⟩, (list_disjoint_comm a.ports ports).mpr h4⟩

/-! ## Additional fixtures for the claim witnesses -/

def port80 : Port := ⟨"TCP", 80⟩

/-- An assignment whose empty sharing key forbids all sharing. -/
def asgnNoShare : Assignment := ⟨0, "p", [port80], "", false⟩

/-- A synced controller with no pools configured. -/
def ctrlNoPools : Ctrl := { synced := true }

/-- A service explicitly requesting load-balancer address 1.2.3.5. -/
def svcLB : Service := { clusterIP := "1.2.3.4", loadBalancerIP := "1.2.3.5" }

/-- A service with no cluster IP set. -/
def svcNoIP : Service := {}

/-- The controller as left by a successful allocation against `ctrlEgw`. -/
def ctrlEgwAfter : Ctrl :=
  { synced := true, ips := ctrlAfter.ips,
    baseURL := some ("http://egw.example"), groupURL := some ("http://egw.example") }

/-! ## Claim theorems -/

/-- Claim C1 counterexample: with the EGW integration configured and an
announcement that fails, the allocation strategy succeeds yet `SetBalancer`
does not return the success outcome. -/
theorem setBalancer_allocOk_error_counterexample :
    (ctrlEgw.allocateIP ("test") svcPlain).2.isOk = true ∧
    (ctrlEgw.SetBalancer egwAnnFail ("test") svcPlain).state ≠ SyncState.SyncStateSuccess :=
  ⟨rfl, by decide⟩

/-- Claim C1 (amended): for every service for which the allocation strategy
succeeds, `SetBalancer` writes the allocated address into the service's
load-balancer status and writes the managed-by brand annotation and the
owning pool's name annotation onto the service; when no EGW integration is
configured it also returns the success outcome (with the integration
configured, the outcome depends on the announcement). -/
theorem setBalancer_success_writes (c : Ctrl) (egw : EGW) (name : String) (svc : Service)
    (ip : Nat) (evs0 : List Event) (pool : String) (lbIP : Nat) (ips' : Allocator)
    (hs : c.synced = true) (hcl : parseIP svc.clusterIP = some ip)
    (hin : hasUsableIngress svc = false)
    (halloc : c.allocateIP name svc = (evs0, .ok (pool, lbIP, ips')))
    (hb : c.baseURL = none) :
    c.SetBalancer egw name svc =
      ⟨.SyncStateSuccess,
        { svc with
          ingress := [ipToString lbIP],
          annotations := some (mapSet (mapSet (svc.annotations.getD []) brandAnnot brand)
                           poolAnnot pool) },
        { c with ips := ips' }, evs0 ++ [.infoEvent evIPAllocated]⟩ := by
  rw [setBalancer_allocPath_eq c egw name svc ip hs hcl hin,
    setBalancerAlloc_ok_noEgw_eq c egw name svc evs0 pool lbIP ips' halloc hb]

/-- Witness for claim C1 at the Go test's configuration. -/
theorem setBalancer_success_writes_witness :
    ctrlSynced.SetBalancer egwOk ("test") svcPlain =
      ⟨.SyncStateSuccess, svcAfter, ctrlAfter,
        [.allocateOp ("test"), .infoEvent evIPAllocated]⟩ := by
  have h := setBalancer_success_writes ctrlSynced egwOk ("test") svcPlain 16909060
    [.allocateOp ("test")] ("default") 16909056 ctrlAfter.ips rfl rfl rfl rfl rfl
  rw [h]
  decide

/-- Claim C2: before `MarkSynced`, `SetBalancer` returns the error outcome and
leaves the service and the controller — hence the allocation table — entirely
unmodified, with no allocation attempted and no event reported. -/
theorem setBalancer_notSynced_noop (c : Ctrl) (egw : EGW) (name : String) (svc : Service)
    (h : c.synced = false) :
    c.SetBalancer egw name svc = ⟨.SyncStateError, svc, c, []⟩ :=
  setBalancer_notSynced_eq c egw name svc h

/-- Witness for claim C2 on a freshly constructed controller. -/
theorem setBalancer_notSynced_noop_witness :
    ctrlBase.SetBalancer egwOk ("test") svcPlain = ⟨.SyncStateError, svcPlain, ctrlBase, []⟩ :=
  setBalancer_notSynced_noop ctrlBase egwOk ("test") svcPlain rfl

/-- Claim C3: the sharing validator admits a candidate (ports, sharingKey) on
an address iff the address has no existing assignments, or the candidate's
sharing key is nonempty, every existing assignment carries that key, and the
candidate's port set is disjoint from every existing port set (an empty port
set conflicting with everything); moreover any existing assignment with an
empty sharing key forbids sharing outright, regardless of ports. -/
theorem sharing_validator_spec :
    (∀ (existing : List Assignment) (ports : List Port) (skey : String),
      sharingOK existing ports skey = true ↔
        (existing = [] ∨
          (skey ≠ "" ∧ ∀ a ∈ existing, a.sharingKey = skey ∧
            (ports ≠ [] ∧ a.ports ≠ [] ∧ ∀ p ∈ ports, p ∉ a.ports)))) ∧
    (∀ (existing : List Assignment) (ports : List Port) (skey : String) (a : Assignment),
      a ∈ existing → a.sharingKey = "" → sharingOK existing ports skey = false) := by
  refine ⟨sharingOK_iff, ?_⟩
  intro existing ports skey a ha hk
  cases hb : sharingOK existing ports skey with
  | false => rfl
  | true =>
    rcases (sharingOK_iff existing ports skey).mp hb with h | ⟨hne, hall⟩
    · rw [h] at ha
      exact absurd ha (List.not_mem_nil a)
    · have hkey := (hall a ha).1
      rw [hk] at hkey
      exact absurd hkey.symm hne

/-- Witness for claim C3: an empty address admits anything; an existing
empty-key assignment forbids sharing. -/
theorem sharing_validator_spec_witness :
    sharingOK [] [port80] "" = true ∧ sharingOK [asgnNoShare] [port80] ("key") = false :=
  ⟨(sharing_validator_spec.1 [] [port80] "").mpr (Or.inl rfl),
    sharing_validator_spec.2 [asgnNoShare] [port80] ("key") asgnNoShare
      (List.mem_singleton.mpr rfl) rfl⟩

/-- Claim C4: when the chosen allocation strategy fails, `SetBalancer` leaves
the service object unmodified — no status or annotation change — and emits a
warning event through the driver's event-reporting channel (returning the
success outcome so the service stays unallocated pending retry). -/
theorem setBalancer_allocFail_frame (c : Ctrl) (egw : EGW) (name : String) (svc : Service)
    (ip : Nat) (evs0 : List Event) (e : AllocateIPError)
    (hs : c.synced = true) (hcl : parseIP svc.clusterIP = some ip)
    (hin : hasUsableIngress svc = false)
    (halloc : c.allocateIP name svc = (evs0, .error e)) :
    c.SetBalancer egw name svc =
      ⟨.SyncStateSuccess, svc, c, evs0 ++ [.warningEvent evAllocationFailed]⟩ := by
  rw [setBalancer_allocPath_eq c egw name svc ip hs hcl hin,
    setBalancerAlloc_err_eq c egw name svc evs0 e halloc]

/-- Witness for claim C4 on a synced controller with no pools. -/
theorem setBalancer_allocFail_frame_witness :
    ctrlNoPools.SetBalancer egwOk ("t") svcPlain =
      ⟨.SyncStateSuccess, svcPlain, ctrlNoPools,
        [.allocateOp ("t"), .warningEvent evAllocationFailed]⟩ :=
  setBalancer_allocFail_frame ctrlNoPools egwOk ("t") svcPlain 16909060
    [.allocateOp ("t")] (.allocFailed .noAddressAvailable) rfl rfl rfl rfl

/-- Claim C5 counterexample: when the EGW announcement of a freshly allocated
address fails, `SetBalancer` does return the failure outcome, but the
service's load-balancer status nevertheless shows the allocated address. -/
theorem setBalancer_announceFail_status_counterexample :
    (ctrlEgw.SetBalancer egwAnnFail ("test") svcPlain).state = .SyncStateError ∧
    (ctrlEgw.SetBalancer egwAnnFail ("test") svcPlain).svc.ingress = [ipToString 16909056] :=
  ⟨rfl, rfl⟩

/-- Claim C5 (amended): when the EGW integration is configured and the
announcement of a freshly allocated address fails, `SetBalancer` returns the
failure outcome; the service, however, keeps the already-written status and
annotations — the address write is not rolled back. -/
theorem setBalancer_announceFail_outcome (c : Ctrl) (egw : EGW) (name : String)
    (svc : Service) (ip : Nat) (evs0 : List Event) (pool : String) (lbIP : Nat)
    (ips' : Allocator) (burl emsg : String) (links : List (String × String))
    (hs : c.synced = true) (hcl : parseIP svc.clusterIP = some ip)
    (hin : hasUsableIngress svc = false)
    (halloc : c.allocateIP name svc = (evs0, .ok (pool, lbIP, ips')))
    (hb : c.baseURL = some burl)
    (hconn : egw.connect burl = .ok ())
    (hgrp : egw.getGroup (c.groupURL.getD "") = .ok links)
    (hann : egw.announceService ((links.lookup createServiceKey).getD "") svc.name
      (ipToString lbIP) = .error emsg) :
    c.SetBalancer egw name svc =
      ⟨.SyncStateError,
        { svc with
          ingress := [ipToString lbIP],
          annotations := some (mapSet (mapSet (svc.annotations.getD []) brandAnnot brand)
                           poolAnnot pool) },
        { c with ips := ips' },
        (evs0 ++ [.infoEvent evIPAllocated]) ++ [.warningEvent evAnnouncementFailed]⟩ := by
  rw [setBalancer_allocPath_eq c egw name svc ip hs hcl hin,
    setBalancerAlloc_announceFail_eq c egw name svc evs0 pool lbIP ips' burl emsg links
      halloc hb hconn hgrp hann]

/-- Witness for claim C5 at the EGW-configured controller. -/
theorem setBalancer_announceFail_outcome_witness :
    ctrlEgw.SetBalancer egwAnnFail ("test") svcPlain =
      ⟨.SyncStateError, svcAfter, ctrlEgwAfter,
        [.allocateOp ("test"), .infoEvent evIPAllocated,
          .warningEvent evAnnouncementFailed]⟩ := by
  have h := setBalancer_announceFail_outcome ctrlEgw egwAnnFail ("test") svcPlain 16909060
    [.allocateOp ("test")] ("default") 16909056 ctrlAfter.ips ("http://egw.example")
    ("announce refused") [] rfl rfl rfl rfl rfl rfl rfl rfl
  rw [h]
  decide

/-- Claim C6: `DeleteBalancer` always returns the reprocess-everything
outcome, whether or not a removal occurred; it removes the key's assignment
when present, is a safe no-op otherwise, and never touches the pools. -/
theorem deleteBalancer_spec (c : Ctrl) (name : String) :
    (c.DeleteBalancer name).1 = .SyncStateReprocessAll ∧
    ((c.ips.allocated.lookup name).isSome = true →
      (c.DeleteBalancer name).2.ips.allocated =
        c.ips.allocated.filter (fun p => p.1 != name)) ∧
    ((c.ips.allocated.lookup name).isSome = false → (c.DeleteBalancer name).2 = c) ∧
    (c.DeleteBalancer name).2.ips.pools = c.ips.pools := by
  refine ⟨rfl, ?_, ?_, ?_⟩
  · intro h
    simp [Ctrl.DeleteBalancer, Allocator.Unassign, h]
  · intro h
    simp [Ctrl.DeleteBalancer, Allocator.Unassign, h]
  · simp only [Ctrl.DeleteBalancer, Allocator.Unassign]
    split <;> rfl

/-- Witness for claim C6: deleting the allocated service frees the table and
signals reprocess-all. -/
theorem deleteBalancer_spec_witness :
    (ctrlAfter.DeleteBalancer ("test")).1 = .SyncStateReprocessAll ∧
    (ctrlAfter.DeleteBalancer ("test")).2.ips.allocated = [] :=
  ⟨(deleteBalancer_spec ctrlAfter ("test")).1,
    ((deleteBalancer_spec ctrlAfter ("test")).2.1 rfl).trans rfl⟩

/-- Claim C7: `allocateIP` selects the strategy in strict order — an explicit
(parseable) load-balancer IP goes to `Assign` on that address; otherwise a
nonempty pool-name annotation goes to `AllocateFromPool` on that pool;
otherwise the any-pool `Allocate` runs. -/
theorem allocateIP_strategy_order :
    (∀ (c : Ctrl) (key : String) (svc : Service) (ip : Nat),
      svc.loadBalancerIP ≠ "" → parseIP svc.loadBalancerIP = some ip →
      c.allocateIP key svc = ([.assignOp key ip],
        match c.ips.Assign key ip (Ports svc) (SharingKey svc) with
        | .error e => .error (.allocFailed e)
        | .ok (pool, ips') => .ok (pool, ip, ips'))) ∧
    (∀ (c : Ctrl) (key : String) (svc : Service),
      svc.loadBalancerIP = "" → annotGet svc desiredPoolAnnot ≠ "" →
      c.allocateIP key svc = ([.allocateFromPoolOp key (annotGet svc desiredPoolAnnot)],
        match c.ips.AllocateFromPool key (annotGet svc desiredPoolAnnot) (Ports svc)
            (SharingKey svc) with
        | .error e => .error (.allocFailed e)
        | .ok (ip, ips') => .ok (annotGet svc desiredPoolAnnot, ip, ips'))) ∧
    (∀ (c : Ctrl) (key : String) (svc : Service),
      svc.loadBalancerIP = "" → annotGet svc desiredPoolAnnot = "" →
      c.allocateIP key svc = ([.allocateOp key],
        match c.ips.Allocate key (Ports svc) (SharingKey svc) with
        | .error e => .error (.allocFailed e)
        | .ok (pool, ip, ips') => .ok (pool, ip, ips'))) := by
  refine ⟨?_, ?_, ?_⟩
  · intro c key svc ip h hp
    unfold Ctrl.allocateIP
    rw [if_pos h, hp]
  · intro c key svc h1 h2
    unfold Ctrl.allocateIP
    rw [if_neg (not_not_intro h1), if_pos h2]
  · intro c key svc h1 h2
    unfold Ctrl.allocateIP
    rw [if_neg (not_not_intro h1), if_neg (not_not_intro h2)]

/-- Witness for claim C7: an explicit load-balancer IP is routed to `Assign`. -/
theorem allocateIP_strategy_order_witness :
    ctrlNoPools.allocateIP ("k") svcLB =
      ([.assignOp ("k") 16909061], .error (.allocFailed .addressNotInPool)) := by
  have h := allocateIP_strategy_order.1 ctrlNoPools ("k") svcLB 16909061 (by decide) rfl
  exact h.trans rfl

/-- Claim C8: `SetConfig` with no configuration reports the error outcome and
returns before replacing pools, leaving the controller — pools and
assignments — unchanged; an empty (but present) configuration is instead
accepted with the reprocess-all outcome, so the missing-configuration
condition is distinct from an empty pool set. -/
theorem setConfig_nil_config (c : Ctrl) :
    c.SetConfig none = (.SyncStateError, c) ∧
    (c.SetConfig (some ⟨[]⟩)).1 = .SyncStateReprocessAll :=
  ⟨rfl, rfl⟩

/-- Claim C9: on a synced controller, `SetBalancer` for a service whose
cluster IP is unset or unparseable returns the success outcome without
invoking any allocation operation and without modifying the service or the
controller. -/
theorem setBalancer_noClusterIP_noop (c : Ctrl) (egw : EGW) (name : String) (svc : Service)
    (hs : c.synced = true) (hcl : parseIP svc.clusterIP = none) :
    c.SetBalancer egw name svc = ⟨.SyncStateSuccess, svc, c, []⟩ :=
  setBalancer_noClusterIP_eq c egw name svc hs hcl

/-- Witness for claim C9 on a service with no cluster IP. -/
theorem setBalancer_noClusterIP_noop_witness :
    ctrlSynced.SetBalancer egwOk ("t") svcNoIP = ⟨.SyncStateSuccess, svcNoIP, ctrlSynced, []⟩ :=
  setBalancer_noClusterIP_noop ctrlSynced egwOk ("t") svcNoIP rfl rfl

/-- Claim C10: on a synced controller, `SetBalancer` for a service already
carrying exactly one parseable ingress IP returns the success outcome without
invoking any allocation operation and without modifying anything; hence a
second `SetBalancer` call immediately after a successful one returns success
and changes neither the service nor the controller. -/
theorem setBalancer_already_assigned_idem :
    (∀ (c : Ctrl) (egw : EGW) (name : String) (svc : Service) (s : String),
      c.synced = true → svc.ingress = [s] → (parseIP s).isSome = true →
      c.SetBalancer egw name svc = ⟨.SyncStateSuccess, svc, c, []⟩) ∧
    (∀ (c c' : Ctrl) (egw : EGW) (name : String) (svc svc' : Service) (evs : List Event),
      c.synced = true →
      c.SetBalancer egw name svc = ⟨.SyncStateSuccess, svc', c', evs⟩ →
      (c'.SetBalancer egw name svc').state = .SyncStateSuccess ∧
        (c'.SetBalancer egw name svc').svc = svc' ∧
        (c'.SetBalancer egw name svc').ctrl = c') :=
  ⟨fun c egw name svc s hs hi hp => setBalancer_ingressSet_eq c egw name svc s hs hi hp,
    fun c c' egw name svc svc' evs hs h =>
      setBalancer_success_idempotent c c' egw name svc svc' evs hs h⟩

/-- Witness for claim C10: the already-assigned service is untouched, and the
call following the successful Go-test allocation is a no-op. -/
theorem setBalancer_already_assigned_idem_witness :
    ctrlAfter.SetBalancer egwOk ("test") svcAfter =
      ⟨.SyncStateSuccess, svcAfter, ctrlAfter, []⟩ ∧
    ((ctrlAfter.SetBalancer egwOk ("test") svcAfter).state = .SyncStateSuccess ∧
      (ctrlAfter.SetBalancer egwOk ("test") svcAfter).svc = svcAfter ∧
      (ctrlAfter.SetBalancer egwOk ("test") svcAfter).ctrl = ctrlAfter) :=
  ⟨setBalancer_already_assigned_idem.1 ctrlAfter egwOk ("test") svcAfter ("1.2.3.0")
      rfl rfl rfl,
    setBalancer_already_assigned_idem.2 ctrlSynced ctrlAfter egwOk ("test") svcPlain
      svcAfter [.allocateOp ("test"), .infoEvent evIPAllocated] rfl (by decide)⟩

end PureLB
